import Mathlib

/-!
Verification development for the `law-makers/crawl` crawler.

Shallow embedding of the core components named by the specification:
the hybrid strategy selector (`internal/engine/hybrid`), the LRU+TTL
response cache (`internal/cache`), the retry wrapper (`internal/retry`),
the browser pool (`internal/engine/dynamic/browser_pool.go`), the
download worker pool (`internal/downloader/pool.go`), the batch scraper
(`internal/engine/batch.go`) and the static fetcher's selector handling
(`internal/engine` static scraper).

Go slices, maps and channels are modelled with lists; Go `int`/`int64`
with `Int`; Go byte lengths (`len` on strings) with `String.utf8ByteSize`.
Each definition mirrors its source function; deviations forced by the
model (no real time, no goroutines) are noted at the definition.
-/

set_option autoImplicit false

namespace Crawl

/-! ### Go `strings` helpers

ASCII-faithful models of the `strings` standard-library functions used by
`internal/engine/hybrid/detector.go`: `strings.ToLower`, `strings.Contains`
and `strings.Count`.  Go's versions are Unicode-aware; the detector only
searches for ASCII patterns, and `Char.toLower` agrees with Go on ASCII. -/
namespace GoStrings

/-- Model of `strings.ToLower` (ASCII case folding). -/
def toLowerGo (s : String) : String :=
  String.mk (s.data.map Char.toLower)

/-- Substring occurrence on character lists: `containsSub sub s` is true iff
`sub` occurs contiguously in `s` (the scan of Go's `strings.Contains`). -/
def containsSub (sub : List Char) : List Char → Bool
  | [] => sub.isPrefixOf []
  | c :: t => sub.isPrefixOf (c :: t) || containsSub sub t

/-- Model of `strings.Contains s sub`. -/
def containsGo (s sub : String) : Bool :=
  containsSub sub.data s.data

/-- The scan of Go's `strings.Count` for a non-empty pattern: on a match
skip past the matched occurrence, otherwise advance one character.  Each
step consumes at least one character of `s`, so a fuel of `s.length`
makes the recursion structural without cutting the scan short
(`List.drop (sub.length - 1) t` is `List.drop sub.length (c :: t)`). -/
def countSubAux (sub : List Char) : Nat → List Char → Nat
  | 0, _ => 0
  | _ + 1, [] => 0
  | fuel + 1, c :: t =>
    if sub.isPrefixOf (c :: t) then
      1 + countSubAux sub fuel (List.drop (sub.length - 1) t)
    else
      countSubAux sub fuel t

/-- Non-overlapping occurrence count on character lists, the semantics of
Go's `strings.Count` (for an empty pattern Go returns rune count + 1). -/
def countSub (sub s : List Char) : Nat :=
  match sub with
  | [] => s.length + 1
  | _ :: _ => countSubAux sub s.length s

/-- Model of `strings.Count s sub`. -/
def countGo (s sub : String) : Nat :=
  countSub sub.data s.data

end GoStrings

/-! ### Hybrid strategy selector — `internal/engine/hybrid` -/
namespace Hybrid

open GoStrings

/-- `Strategy` from `internal/engine/hybrid/strategy.go`. -/
inductive Strategy where
  | Static
  | Hybrid
  | Dynamic
deriving DecidableEq, Repr

/-- `DetectJavaScriptFramework` from `internal/engine/hybrid/detector.go`. -/
def DetectJavaScriptFramework (html : String) : String :=
  let h := toLowerGo html
  if containsGo h "react" || containsGo h "_react" then "React"
  else if containsGo h "vue" || containsGo h "vuejs" then "Vue"
  else if containsGo h "angular" || containsGo h "ng-app" then "Angular"
  else if containsGo h "ember" then "Ember"
  else if containsGo h "svelte" then "Svelte"
  else "Unknown"

/-- `NeedsJavaScript` from `internal/engine/hybrid/detector.go`. -/
def NeedsJavaScript (html : String) (scriptCount : Int) : Bool :=
  if scriptCount > 5 then true
  else if DetectJavaScriptFramework html != "Unknown" then true
  else if countGo html "<div" < 3 && scriptCount > 0 then true
  else false

/-- `DetermineStrategy` from `internal/engine/hybrid/strategy.go`. -/
def DetermineStrategy (html : String) (scriptCount : Int) : Strategy :=
  if scriptCount == 0 then .Static
  else if NeedsJavaScript html scriptCount then .Dynamic
  else if scriptCount > 0 then .Hybrid
  else .Static

end Hybrid

/-! ### LRU + TTL response cache — `internal/cache/cache.go`

The Go `MemoryCache` keeps a `map[string]*list.Element` plus a doubly
linked `list.List` whose front is the most-recently-used entry; the map
is exactly the set of keys on the list, so both are modelled by one
association list (`lru`, front = MRU, back = LRU).  Sizes are `int64`,
modelled by `Int`; `len` on a Go string is its byte length, modelled by
`String.utf8ByteSize`.  Wall-clock time is passed in explicitly as `now`
(an instant in nanoseconds, like Go's `time.Time`/`time.Duration`); the
background expiry sweep and the asynchronous `go mc.Delete(key)` issued
by `Get` on an expired entry happen outside the modelled step, so `Get`
on an expired entry leaves the entry in place (as the real `Get` does at
the moment it returns). -/
namespace Cache

/-- The fields of `models.PageData` that `internal/cache/cache.go` reads:
`Set`, `Delete` and `evictLRU` only ever inspect `len(data.HTML)`,
`len(data.Content)` and `len(data.Title)`. -/
structure PageData where
  title : String := ""
  content : String := ""
  html : String := ""
deriving DecidableEq, Repr

/-- `cacheEntry` from `internal/cache/cache.go`. -/
structure CacheEntry where
  data : PageData
  expiresAt : Int
  key : String
deriving DecidableEq, Repr

/-- `MemoryCache` from `internal/cache/cache.go`: `lru` holds the entries
in recency order (front = most recently used) and stands for both the
`store` map and the `lruList`; `size`/`maxSize` are the byte accounting. -/
structure MemoryCache where
  lru : List CacheEntry
  maxSize : Int
  size : Int
  hits : Nat
  misses : Nat
deriving DecidableEq, Repr

/-- Default ttl used by `Set` when `ttl <= 0`: 5 minutes in nanoseconds. -/
def defaultTTL : Int := 5 * 60 * 1000000000

/-- `NewMemoryCache`: a nonpositive `maxSizeBytes` falls back to 100 MB. -/
def NewMemoryCache (maxSizeBytes : Int) : MemoryCache :=
  { lru := []
    maxSize := if maxSizeBytes ≤ 0 then 100 * 1024 * 1024 else maxSizeBytes
    size := 0
    hits := 0
    misses := 0 }

/-- The cost charged by `Set` when admitting an entry:
`int64(len(data.HTML) + len(data.Content) + len(data.Title))` plus the
fixed 1024-byte struct overhead (`cache.go` lines 129–130). -/
def setCost (d : PageData) : Int :=
  (d.html.utf8ByteSize + d.content.utf8ByteSize + d.title.utf8ByteSize : Nat) + 1024

/-- The size subtracted when an entry leaves the cache or is replaced:
`int64(len(entry.Data.HTML) + len(entry.Data.Content))` — note no Title
and no 1024 overhead (`cache.go` lines 135, 189, 229, 256). -/
def removalCost (d : PageData) : Int :=
  (d.html.utf8ByteSize + d.content.utf8ByteSize : Nat)

/-- The effective ttl of a `Set`: `ttl <= 0` is replaced by the default. -/
def effTTL (ttl : Int) : Int :=
  if ttl ≤ 0 then defaultTTL else ttl

/-- `MemoryCache.evictLRU`: drop the back (least recently used) element,
subtracting its `removalCost`; no-op on an empty list. -/
def evictLRU (mc : MemoryCache) : MemoryCache :=
  if h : mc.lru = [] then mc
  else
    { mc with
      lru := mc.lru.dropLast
      size := mc.size - removalCost (mc.lru.getLast h).data }

/-- The body of the eviction loop inside `Set`, iterated on a fuel: each
pass through the loop requires a non-empty list and removes one entry, so
a fuel of the list's length lets the structural recursion run the
`while` loop to its exit (when the fuel is spent the list is empty and
the loop condition is false anyway). -/
def evictLoopAux (cost : Int) : Nat → MemoryCache → MemoryCache
  | 0, mc => mc
  | fuel + 1, mc =>
    if mc.size + cost > mc.maxSize ∧ mc.lru ≠ [] then
      evictLoopAux cost fuel (evictLRU mc)
    else mc

/-- The eviction loop inside `Set`:
`for mc.size+size > mc.maxSize && mc.lruList.Len() > 0 { mc.evictLRU() }`. -/
def evictLoop (cost : Int) (mc : MemoryCache) : MemoryCache :=
  evictLoopAux cost mc.lru.length mc

/-- `MemoryCache.Set`.  On an existing key the old entry's `removalCost`
is subtracted, the entry replaced in place and moved to the front; on a
new key the eviction loop runs, then the entry is pushed at the front and
its full `setCost` added. -/
def Set (mc : MemoryCache) (now : Int) (key : String) (data : PageData) (ttl : Int) :
    MemoryCache :=
  let t := effTTL ttl
  let size := setCost data
  match mc.lru.find? (fun e => e.key == key) with
  | some oldEntry =>
    let oldSize := removalCost oldEntry.data
    let entry : CacheEntry := { data := data, expiresAt := now + t, key := key }
    { mc with
      lru := entry :: mc.lru.eraseP (fun e => e.key == key)
      size := mc.size - oldSize + size }
  | none =>
    let mc' := evictLoop size mc
    let entry : CacheEntry := { data := data, expiresAt := now + t, key := key }
    { mc' with
      lru := entry :: mc'.lru
      size := mc'.size + size }

/-- `MemoryCache.Get`: a present, unexpired key is a hit and is moved to
the front of the LRU list; a missing key or an expired entry is a miss
(the expired entry's deletion is dispatched asynchronously and is not
part of this step). -/
def Get (mc : MemoryCache) (now : Int) (key : String) :
    Option PageData × MemoryCache :=
  match mc.lru.find? (fun e => e.key == key) with
  | none => (none, { mc with misses := mc.misses + 1 })
  | some e =>
    if now > e.expiresAt then
      (none, { mc with misses := mc.misses + 1 })
    else
      (some e.data,
        { mc with
          lru := e :: mc.lru.eraseP (fun x => x.key == key)
          hits := mc.hits + 1 })

/-- `MemoryCache.Delete`: remove the keyed entry, subtracting its
`removalCost`. -/
def Delete (mc : MemoryCache) (key : String) : MemoryCache :=
  match mc.lru.find? (fun e => e.key == key) with
  | none => mc
  | some e =>
    { mc with
      lru := mc.lru.eraseP (fun x => x.key == key)
      size := mc.size - removalCost e.data }

end Cache

/-! ### Retry / backoff — `internal/retry/retry.go`

`WithRetry` is modelled as a function of the attempt-indexed outcomes of
the wrapped operation (`fn : Nat → Option GoErr`, `none` = success on
that invocation).  Backoff sleeping and context cancellation are timing
behaviour: the model takes the `time.After` branch of the select (the
caller's context is never cancelled), which is the path every claim here
is about.  The returned value records how many times `fn` was invoked
together with the Go function's return value. -/
namespace Retry

/-- The error shapes `shouldRetry` distinguishes (`retry.go` lines
115–153).  Any error whose dynamic type implements `StatusCoder` — which
includes `retry.HTTPError` and `downloader.DownloadError` — takes the
status-code branch; the separate legacy `HTTPError` branch is shadowed by
it and unreachable. -/
inductive GoErr where
  | statusCode (code : Int)
  | timeoutShaped
  | temporary (isTemporary : Bool)
  | other
deriving DecidableEq, Repr

/-- `retry.Config` (backoff durations omitted: they only shape sleep
lengths, which the model does not measure). -/
structure Config where
  maxAttempts : Int
  retryableStatusCodes : List Int
deriving DecidableEq, Repr

/-- `DefaultConfig` from `internal/retry/retry.go` (the backoff durations
it also sets are not part of the model). -/
def DefaultConfig : Config :=
  { maxAttempts := 3
    retryableStatusCodes := [429, 500, 502, 503, 504] }

/-- `shouldRetry` from `internal/retry/retry.go`. -/
def shouldRetry (e : GoErr) (cfg : Config) : Bool :=
  match e with
  | .statusCode code => cfg.retryableStatusCodes.contains code
  | .timeoutShaped => true
  | .temporary b => b
  | .other => true

/-- The value `WithRetry` returns. -/
inductive RetryReturn where
  /-- `return nil` after a successful attempt. -/
  | ok
  /-- `return err`: a non-retryable error returned as-is. -/
  | failed (e : GoErr)
  /-- `fmt.Errorf("operation failed after %d attempts: %w", cfg.MaxAttempts, lastErr)`:
  the wrapped error names `cfg.MaxAttempts` and wraps `lastErr` (which is
  `nil` when the loop never ran). -/
  | exhausted (reportedAttempts : Int) (lastErr : Option GoErr)
deriving DecidableEq, Repr

/-- The reported attempt count inside the wrapped "operation failed after
%d attempts" error, when the return value is that wrapped error. -/
def reportedAttempts : RetryReturn → Option Int
  | .exhausted n _ => some n
  | _ => none

/-- The `for attempt := 0; attempt < cfg.MaxAttempts; attempt++` loop of
`WithRetry`: `i` is the current attempt index, `n` the remaining
iterations, `last` the `lastErr` variable.  Returns the number of
invocations of `fn` performed together with the return value. -/
def retryLoop (cfg : Config) (fn : Nat → Option GoErr) :
    Nat → Nat → Option GoErr → Nat × RetryReturn
  | _, 0, last => (0, .exhausted cfg.maxAttempts last)
  | i, n + 1, _last =>
    match fn i with
    | none => (1, .ok)
    | some e =>
      if shouldRetry e cfg then
        let r := retryLoop cfg fn (i + 1) n (some e)
        (r.1 + 1, r.2)
      else
        (1, .failed e)

/-- `WithRetry` from `internal/retry/retry.go`.  The loop runs at most
`cfg.MaxAttempts` iterations (none when `MaxAttempts ≤ 0`), entering with
`lastErr = nil`. -/
def WithRetry (cfg : Config) (fn : Nat → Option GoErr) : Nat × RetryReturn :=
  retryLoop cfg fn 0 cfg.maxAttempts.toNat none

end Retry

/-! ### Browser pool — `internal/engine/dynamic/browser_pool.go`

The buffered channel `contexts` is a FIFO list plus a closed flag.  Go
channel semantics modelled: a receive yields the oldest buffered value if
any; on a closed empty channel it yields the zero value (`nil`) without
blocking; on an open empty channel it blocks.  `chromedp` handles are
abstracted to an id; warming up a context (`Navigate("about:blank")`) is
modelled as succeeding, which is the only path on which a pool is
returned to the caller at all.  The namespace is the Go package name,
`dynamic`. -/
namespace Dynamic

/-- `BrowserContext`: one live execution context (its `Ctx`/`Cancel`
handles abstracted to an identity). -/
structure BrowserContext where
  id : Nat
deriving DecidableEq, Repr

/-- `BrowserPool`: `contexts` is the buffered channel's content (front =
next to be received), `chanClosed` whether `close(bp.contexts)` has run,
`closed` the `bp.closed` flag, `size` the `bp.size` field. -/
structure BrowserPool where
  contexts : List BrowserContext
  chanClosed : Bool
  closed : Bool
  size : Int
deriving DecidableEq, Repr

/-- The effective pool size computed at the top of `NewBrowserPool`:
`opts.Size <= 0` falls back to the default 3; sizes above 10 are capped
at 10 (`browser_pool.go` lines 43–48). -/
def effectiveSize (requested : Int) : Int :=
  if requested ≤ 0 then 3
  else if requested > 10 then 10
  else requested

/-- The pool size the claim asserts, in the claim's words: the requested
size "clamped to the range 1–10, including requested sizes of 0 or
below".  Stated here only to be compared against `effectiveSize`, which
is the translation of the source. -/
def specClampSize (requested : Int) : Int :=
  max 1 (min requested 10)

/-- `NewBrowserPool` on the success path: pre-creates `effectiveSize`
warmed contexts and puts them all in the channel. -/
def NewBrowserPool (requested : Int) : BrowserPool :=
  let s := effectiveSize requested
  { contexts := (List.range s.toNat).map (fun i => { id := i })
    chanClosed := false
    closed := false
    size := s }

/-- What `Acquire` does, observed at its return. -/
inductive AcquireOutcome where
  /-- `return ctx, nil` — the pointer handed to the caller (`none` is a
  nil pointer, possible only on the non-closed path). -/
  | acquired (ctx : Option BrowserContext)
  /-- `return nil, fmt.Errorf(msg)`. -/
  | error (msg : String)
  /-- Runtime panic: `ctx.Cancel()` dereferences a nil `*BrowserContext`
  received from the closed, drained channel. -/
  | nilPanic
  /-- The receive blocks with no timeout armed (no context available,
  channel open). -/
  | blocked
deriving DecidableEq, Repr

/-- One receive from the `contexts` channel: `none` means the receive
blocks; `some (v, bp')` means it completes yielding pointer `v` (`none` =
the nil zero value of a closed empty channel). -/
def chanRecv (bp : BrowserPool) : Option (Option BrowserContext × BrowserPool) :=
  match bp.contexts with
  | c :: rest => some (some c, { bp with contexts := rest })
  | [] => if bp.chanClosed then some (none, bp) else none

/-- `BrowserPool.Acquire`.  Both the `timeout > 0` select branch and the
plain receive run the same body after the receive completes: under the
mutex, if `bp.closed` the received `ctx` gets `ctx.Cancel()` — a nil
dereference when the closed channel yielded its zero value — and an
error is returned; otherwise the received pointer is returned to the
caller.  A receive that never completes is the `blocked` outcome, or the
timeout error when a timeout was armed. -/
def Acquire (bp : BrowserPool) (timeout : Int) : AcquireOutcome × BrowserPool :=
  match chanRecv bp with
  | none =>
    if timeout > 0 then
      (.error "timeout waiting for available browser context", bp)
    else
      (.blocked, bp)
  | some (recv, bp') =>
    if bp'.closed then
      match recv with
      | some _ => (.error "browser pool is closed", bp')
      | none => (.nilPanic, bp')
    else
      (.acquired recv, bp')

/-- `BrowserPool.Close`: idempotent; marks the pool closed, closes the
channel, drains and cancels every buffered context, cancels the
allocator. -/
def Close (bp : BrowserPool) : BrowserPool :=
  if bp.closed then bp
  else { bp with closed := true, chanClosed := true, contexts := [] }

end Dynamic

/-! ### Download worker pool — `internal/downloader/pool.go`

`DownloadBatch` feeds every url through a jobs channel to `concurrency`
workers; each url is taken by exactly one worker and produces exactly one
`DownloadResult` on the results channel (either the downloader's result,
or — when the job body panics — the recovery handler's failed result),
and the channel is closed when the workers finish.  The model collapses
the scheduling nondeterminism: results are listed in submission order
(the real pool delivers them in completion order, a permutation), and
cancellation is not exercised (`ctx.Done` never fires).  The underlying
operation `download` is a parameter; a panicking `Download` is the
`panicked` outcome. -/
namespace Downloader

/-- The fields of `DownloadResult` that the pool's per-job handling
writes: `URL`, `Success` and `Error` (file path, byte size and duration
are payload of a successful download, abstracted into `ok`'s value). -/
structure DownloadResult where
  url : String
  success : Bool
  error : Option String
deriving DecidableEq, Repr

/-- What one invocation of the underlying operation does: return a
result, or panic with a message (`fmt.Sprintf("%v", r)` of the recovered
value). -/
inductive JobOutcome where
  | ok (r : DownloadResult)
  | panicked (msg : String)
deriving DecidableEq, Repr

/-- One job as executed inside the worker's recover-protected scope
(`pool.go` lines 119–173): a panic is recovered and converted into
`&DownloadResult{URL: currentURL, Success: false, Error:
fmt.Errorf("worker panic: %v", r)}`; otherwise the downloader's result is
sent. -/
def processJob (download : String → JobOutcome) (url : String) : DownloadResult :=
  match download url with
  | .ok r => r
  | .panicked msg =>
    { url := url, success := false, error := some ("worker panic: " ++ msg) }

/-- `WorkerPool.DownloadBatch`: every submitted url is processed exactly
once and contributes exactly one result. -/
def DownloadBatch (download : String → JobOutcome) (urls : List String) :
    List DownloadResult :=
  urls.map (processJob download)

end Downloader

/-! ### Batch scraper — `internal/engine/batch.go`

`ScrapeBatch` groups the requests by domain (`url.Parse(req.URL).Host`,
or the `"default"` group when parsing fails — the `net/url` parser is
abstracted into the `host` parameter), then fetches every request of
every group, sending one `ScrapeResult` per request on a channel that is
closed after all of them; the caller drains it to a list.  Groups are
modelled in first-appearance order (Go map iteration order is arbitrary;
the claims here are order-insensitive). -/
namespace Batch

/-- `models.ScrapeResult` with the fetched payload abstracted. -/
structure ScrapeResult where
  hasData : Bool
  hasError : Bool
deriving DecidableEq, Repr

/-- Insert one request into its domain group (`groups[domain] =
append(groups[domain], req)`). -/
def insertGroup {Req : Type} (domain : String) (req : Req) :
    List (String × List Req) → List (String × List Req)
  | [] => [(domain, [req])]
  | (d, rs) :: rest =>
    if d = domain then (d, rs ++ [req]) :: rest
    else (d, rs) :: insertGroup domain req rest

/-- `groupByDomain`: the per-domain grouping of a request list. -/
def groupByDomain {Req : Type} (host : Req → String) (requests : List Req) :
    List (String × List Req) :=
  requests.foldl (fun gs r => insertGroup (host r) r gs) []

/-- `BatchScraper.ScrapeBatch`: every request of every domain group is
fetched once; the drained result channel holds the per-request results. -/
def ScrapeBatch {Req : Type} (fetch : Req → ScrapeResult) (host : Req → String)
    (requests : List Req) : List ScrapeResult :=
  (groupByDomain host requests).foldr (fun g acc => g.2.map fetch ++ acc) []

end Batch

/-! ### Static fetcher, selector handling — `internal/engine`
(`StaticScraper.Fetch`, lines 163–182)

The network, goquery parsing and header plumbing upstream of the selector
step are abstracted into a `Doc`: what `doc.Find(sel)` yields for each
selector.  The modelled step is the population of `PageData.Content` and
`PageData.HTML` from the selector, together with the error value `Fetch`
returns when it reaches that point (the function's only remaining return
is `return pageData, nil`). -/
namespace StaticEngine

/-- What `doc.Find(selector)` exposes: `.Length()`, `.Text()`, `.Html()`. -/
structure Selection where
  length : Nat
  text : String
  html : String
deriving DecidableEq, Repr

/-- A parsed document, abstracted to its selector lookup. -/
structure Doc where
  find : String → Selection

/-- The content fields of the returned `PageData` plus the error value
returned alongside it. -/
structure ContentResult where
  content : String
  html : String
  err : Option String
deriving DecidableEq, Repr

/-- The selector block of `StaticScraper.Fetch` (`engine` static scraper,
lines 167–182) followed by its `return pageData, nil`: a non-default
selector with at least one match fills the fields from the selection; a
non-default selector with no match only logs
`"Selector not found in document"` and leaves both fields empty; the
default selector path extracts the body.  All three paths return a nil
error. -/
def extractSelectorContent (doc : Doc) (selector : String) : ContentResult :=
  if selector ≠ "" ∧ selector ≠ "body" then
    let sel := doc.find selector
    if sel.length > 0 then
      { content := sel.text.trim, html := sel.html, err := none }
    else
      { content := "", html := "", err := none }
  else
    { content := (doc.find "body").text.trim
      html := (doc.find "html").html
      err := none }

end StaticEngine

end Crawl

/-!
## Theorems

The claims of the specification, settled against the embedding above.
-/

open Crawl

/-- C4, counterexample: the empty page has one script, no recognizable
framework signature, and fewer than three `<div`s, so `NeedsJavaScript`
flags it and `DetermineStrategy` selects Dynamic — not Hybrid as the
claim's third clause ("Hybrid for every html with 1–2 scripts and no
recognizable framework signature") requires. -/
theorem determineStrategy_one_script_no_framework_is_dynamic :
    Hybrid.DetectJavaScriptFramework "" = "Unknown" ∧
    Hybrid.DetermineStrategy "" 1 = Hybrid.Strategy.Dynamic ∧
    Hybrid.DetermineStrategy "" 1 ≠ Hybrid.Strategy.Hybrid := by
  refine ⟨by decide, by decide, by decide⟩

/-- C4, amended: `DetermineStrategy` returns Static for every html when
the script count is zero; Dynamic whenever scripts are present and
`NeedsJavaScript` holds; and Hybrid for html with 1–2 scripts, no
recognized framework signature, and at least three `<div` occurrences
(the minimal-markup heuristic `strings.Count(html, "<div") < 3` must also
not fire — the claim omitted this third condition). -/
theorem determineStrategy_three_way :
    (∀ html : String, Hybrid.DetermineStrategy html 0 = Hybrid.Strategy.Static) ∧
    (∀ (html : String) (n : Int), n ≠ 0 → Hybrid.NeedsJavaScript html n = true →
      Hybrid.DetermineStrategy html n = Hybrid.Strategy.Dynamic) ∧
    (∀ (html : String) (n : Int), n = 1 ∨ n = 2 →
      Hybrid.DetectJavaScriptFramework html = "Unknown" →
      3 ≤ GoStrings.countGo html "<div" →
      Hybrid.DetermineStrategy html n = Hybrid.Strategy.Hybrid) := by
  refine ⟨?_, ?_, ?_⟩
  · intro html
    simp [Hybrid.DetermineStrategy]
  · intro html n hn hjs
    simp [Hybrid.DetermineStrategy, hjs, hn]
  · intro html n hn hfw hcount
    have hnotlt := Nat.not_lt.mpr hcount
    rcases hn with h | h <;> subst h <;>
      simp [Hybrid.DetermineStrategy, Hybrid.NeedsJavaScript, hfw, hnotlt]

/-- C4, witness: the three clauses of `determineStrategy_three_way` at
concrete pages — no scripts, seven scripts, and a three-`<div>` page with
two scripts and no framework marker. -/
theorem determineStrategy_three_way_witness :
    Hybrid.DetermineStrategy "<p>hi</p>" 0 = Hybrid.Strategy.Static ∧
    Hybrid.DetermineStrategy "" 7 = Hybrid.Strategy.Dynamic ∧
    Hybrid.DetermineStrategy "<div><div><div>" 2 = Hybrid.Strategy.Hybrid :=
  ⟨determineStrategy_three_way.1 "<p>hi</p>",
   determineStrategy_three_way.2.1 "" 7 (by decide) (by decide),
   determineStrategy_three_way.2.2 "<div><div><div>" 2 (Or.inr rfl)
     (by decide) (by decide)⟩

/-- Helper: when every invocation fails with the same retryable error,
the retry loop runs all its iterations and returns the wrapped
"operation failed after MaxAttempts attempts" error around that error. -/
theorem retryLoop_const_retryable (cfg : Retry.Config) (e : Retry.GoErr)
    (hr : Retry.shouldRetry e cfg = true) :
    ∀ (n i : Nat) (last : Option Retry.GoErr),
      Retry.retryLoop cfg (fun _ => some e) i n last =
        (n, .exhausted cfg.maxAttempts (if n = 0 then last else some e)) := by
  intro n
  induction n with
  | zero => intro i last; rfl
  | succ n ih =>
    intro i last
    simp [Retry.retryLoop, hr, ih (i + 1) (some e)]

/-- C5: with a config whose retryable set contains 429 and a positive
`MaxAttempts`, an operation that always fails with status 429 is invoked
exactly `MaxAttempts` times and `WithRetry` returns the wrapped error
naming `MaxAttempts` and the last 429 failure; an operation that always
fails with status 404 (not retryable under the same config) is invoked
exactly once and its error is returned as-is. -/
theorem withRetry_status_classification (cfg : Retry.Config)
    (h429 : cfg.retryableStatusCodes.contains 429 = true)
    (h404 : cfg.retryableStatusCodes.contains 404 = false)
    (hm : 0 < cfg.maxAttempts) :
    Retry.WithRetry cfg (fun _ => some (.statusCode 429)) =
      (cfg.maxAttempts.toNat,
        .exhausted cfg.maxAttempts (some (.statusCode 429))) ∧
    Retry.WithRetry cfg (fun _ => some (.statusCode 404)) =
      (1, .failed (.statusCode 404)) := by
  constructor
  · have hr : Retry.shouldRetry (.statusCode 429) cfg = true := h429
    have hn : cfg.maxAttempts.toNat ≠ 0 := by omega
    rw [Retry.WithRetry, retryLoop_const_retryable cfg _ hr]
    simp [hn]
  · obtain ⟨k, hk⟩ : ∃ k, cfg.maxAttempts.toNat = k + 1 :=
      ⟨cfg.maxAttempts.toNat - 1, by omega⟩
    have h4 : Retry.shouldRetry (.statusCode 404) cfg = false := h404
    rw [Retry.WithRetry, hk]
    simp [Retry.retryLoop, h4]

/-- C5, witness: `withRetry_status_classification` at `DefaultConfig`
(3 attempts, retryable set `[429, 500, 502, 503, 504]`). -/
theorem withRetry_status_classification_witness :
    Retry.WithRetry Retry.DefaultConfig (fun _ => some (.statusCode 429)) =
      (3, .exhausted 3 (some (.statusCode 429))) ∧
    Retry.WithRetry Retry.DefaultConfig (fun _ => some (.statusCode 404)) =
      (1, .failed (.statusCode 404)) :=
  withRetry_status_classification Retry.DefaultConfig (by decide) (by decide)
    (by decide)

/-- C10, counterexample: with `MaxAttempts = -1` the operation is never
invoked and the wrapped error reports `-1` attempts — not `0` as the
claim states. -/
theorem withRetry_negative_attempts_reports_negative :
    Retry.WithRetry { maxAttempts := -1, retryableStatusCodes := [429, 500, 502, 503, 504] }
        (fun _ => none) =
      (0, .exhausted (-1) none) ∧
    Retry.reportedAttempts
        (Retry.WithRetry
          { maxAttempts := -1, retryableStatusCodes := [429, 500, 502, 503, 504] }
          (fun _ => none)).2 ≠ some 0 := by
  constructor
  · rfl
  · decide

/-- C10, amended: for every config with `MaxAttempts ≤ 0`, `WithRetry`
never invokes the wrapped operation and returns the non-nil wrapped
error, which wraps a nil underlying error and reports the configured
`MaxAttempts` value (0 when it is 0, the negative value itself when
negative) rather than always 0. -/
theorem withRetry_nonpositive_attempts (cfg : Retry.Config)
    (hm : cfg.maxAttempts ≤ 0) (fn : Nat → Option Retry.GoErr) :
    Retry.WithRetry cfg fn = (0, .exhausted cfg.maxAttempts none) := by
  have h0 : cfg.maxAttempts.toNat = 0 := by omega
  rw [Retry.WithRetry, h0]
  rfl

/-- C10, witness: `withRetry_nonpositive_attempts` at `MaxAttempts = 0`
with an operation that would succeed if it were ever invoked. -/
theorem withRetry_nonpositive_attempts_witness :
    Retry.WithRetry { maxAttempts := 0, retryableStatusCodes := [] }
        (fun _ => none) =
      (0, .exhausted 0 none) :=
  withRetry_nonpositive_attempts _ (by decide) _

/-- C9, counterexample: a requested pool size of 0 pre-creates 3 browser
contexts (the default), not `clamp(0, 1, 10) = 1` as the claim states. -/
theorem newBrowserPool_zero_requested_size :
    (Dynamic.NewBrowserPool 0).contexts.length = 3 ∧
    Dynamic.specClampSize 0 = 1 ∧
    (Dynamic.NewBrowserPool 0).contexts.length ≠ (Dynamic.specClampSize 0).toNat := by
  decide

/-- C9, amended: `NewBrowserPool` pre-creates exactly `effectiveSize`
contexts, where a requested size in 1–10 is used as-is, a size above 10
is capped at 10, and a size of 0 or below falls back to the default of 3
(not to the clamp's lower bound 1). -/
theorem newBrowserPool_context_count (n : Int) :
    (Dynamic.NewBrowserPool n).contexts.length = (Dynamic.effectiveSize n).toNat ∧
    (n ≤ 0 → Dynamic.effectiveSize n = 3) ∧
    (1 ≤ n → n ≤ 10 → Dynamic.effectiveSize n = n) ∧
    (10 < n → Dynamic.effectiveSize n = 10) := by
  refine ⟨?_, ?_, ?_, ?_⟩
  · simp [Dynamic.NewBrowserPool]
  · intro h
    simp [Dynamic.effectiveSize, h]
  · intro h1 h10
    have hn : ¬ n ≤ 0 := by omega
    have hc : ¬ n > 10 := by omega
    simp [Dynamic.effectiveSize, hn, hc]
  · intro h
    have hn : ¬ n ≤ 0 := by omega
    simp [Dynamic.effectiveSize, hn, h]

/-- C9, witness: `newBrowserPool_context_count` at requested sizes 5, -2
and 99. -/
theorem newBrowserPool_context_count_witness :
    (Dynamic.NewBrowserPool 5).contexts.length = (Dynamic.effectiveSize 5).toNat ∧
    Dynamic.effectiveSize 5 = 5 ∧
    Dynamic.effectiveSize (-2) = 3 ∧
    Dynamic.effectiveSize 99 = 10 :=
  ⟨(newBrowserPool_context_count 5).1,
   (newBrowserPool_context_count 5).2.2.1 (by decide) (by decide),
   (newBrowserPool_context_count (-2)).2.1 (by decide),
   (newBrowserPool_context_count 99).2.2.2 (by decide)⟩

/-- C3: evaluating `Acquire` on a pool after `Close` — the channel is
closed and drained, so the receive completes immediately with the nil
zero value, the `bp.closed` check passes, and `ctx.Cancel()` dereferences
the nil pointer: `Acquire` panics instead of returning the
"browser pool is closed" error, for any timeout. -/
theorem acquire_after_close_nil_panic (bp : Dynamic.BrowserPool) (t : Int)
    (h : bp.closed = false) :
    (Dynamic.Acquire (Dynamic.Close bp) t).1 = Dynamic.AcquireOutcome.nilPanic ∧
    ∀ msg, (Dynamic.Acquire (Dynamic.Close bp) t).1 ≠
      Dynamic.AcquireOutcome.error msg := by
  have hc : Dynamic.Close bp =
      { bp with closed := true, chanClosed := true, contexts := [] } := by
    simp [Dynamic.Close, h]
  rw [hc]
  simp [Dynamic.Acquire, Dynamic.chanRecv]

/-- C3, witness: `acquire_after_close_nil_panic` on a freshly created
one-context pool, with and without a timeout. -/
theorem acquire_after_close_nil_panic_witness :
    (Dynamic.Acquire (Dynamic.Close (Dynamic.NewBrowserPool 1)) 0).1 =
      Dynamic.AcquireOutcome.nilPanic ∧
    (Dynamic.Acquire (Dynamic.Close (Dynamic.NewBrowserPool 1)) 5).1 =
      Dynamic.AcquireOutcome.nilPanic :=
  ⟨(acquire_after_close_nil_panic (Dynamic.NewBrowserPool 1) 0 (by decide)).1,
   (acquire_after_close_nil_panic (Dynamic.NewBrowserPool 1) 5 (by decide)).1⟩

/-- Helper: inserting a request into its domain group grows the total
number of grouped requests by exactly one. -/
theorem insertGroup_total {Req : Type} (d : String) (r : Req)
    (gs : List (String × List Req)) :
    ((Batch.insertGroup d r gs).map (fun g => g.2.length)).sum =
      (gs.map (fun g => g.2.length)).sum + 1 := by
  induction gs with
  | nil => simp [Batch.insertGroup]
  | cons g t ih =>
    obtain ⟨d', rs⟩ := g
    by_cases h : d' = d
    · simp [Batch.insertGroup, h]
      omega
    · simp [Batch.insertGroup, h, ih]
      omega

/-- Helper: grouping by domain preserves the total number of requests. -/
theorem groupByDomain_total {Req : Type} (host : Req → String)
    (requests : List Req) :
    ∀ gs : List (String × List Req),
      ((requests.foldl (fun gs r => Batch.insertGroup (host r) r gs) gs).map
        (fun g => g.2.length)).sum =
      (gs.map (fun g => g.2.length)).sum + requests.length := by
  induction requests with
  | nil => intro gs; simp
  | cons r t ih =>
    intro gs
    simp only [List.foldl_cons, List.length_cons]
    rw [ih, insertGroup_total]
    omega

/-- Helper: draining the batch result channel yields one result per
grouped request. -/
theorem foldr_groups_length {Req : Type} (fetch : Req → Batch.ScrapeResult)
    (gs : List (String × List Req)) :
    (gs.foldr (fun g acc => g.2.map fetch ++ acc) []).length =
      (gs.map (fun g => g.2.length)).sum := by
  induction gs with
  | nil => rfl
  | cons g t ih => simp [ih]

/-- C2: the download worker pool yields exactly one result per submitted
url, in particular a result whose URL is the job's URL; a job whose
underlying operation panics yields for its URL a failed result carrying
the "worker panic: ..." error instead of being dropped; and the batch
scraper likewise yields exactly one result per submitted request.  (The
pool returning rather than hanging is reflected by the model being a
total function of the job list.) -/
theorem pool_one_result_per_job_panic_isolated {Req : Type}
    (download : String → Downloader.JobOutcome) (urls : List String)
    (fetch : Req → Batch.ScrapeResult) (host : Req → String)
    (requests : List Req) :
    (Downloader.DownloadBatch download urls).length = urls.length ∧
    (∀ i : Nat, (Downloader.DownloadBatch download urls)[i]? =
      (urls[i]?).map (Downloader.processJob download)) ∧
    (∀ url msg, download url = .panicked msg →
      Downloader.processJob download url =
        { url := url, success := false,
          error := some ("worker panic: " ++ msg) }) ∧
    (Batch.ScrapeBatch fetch host requests).length = requests.length := by
  refine ⟨?_, ?_, ?_, ?_⟩
  · simp [Downloader.DownloadBatch]
  · intro i
    simp [Downloader.DownloadBatch]
  · intro url msg h
    simp [Downloader.processJob, h]
  · rw [Batch.ScrapeBatch, foldr_groups_length, Batch.groupByDomain,
      groupByDomain_total]
    simp

/-- C2, witness: a two-job batch whose operation panics on the first url
yields exactly two results, the first of them the recovered panic
failure; a three-request scrape batch over two hosts yields exactly
three results. -/
theorem pool_one_result_per_job_panic_isolated_witness :
    (Downloader.DownloadBatch
        (fun u => if u = "http://x/a" then .panicked "boom"
          else .ok { url := u, success := true, error := none })
        ["http://x/a", "http://y/b"]).length = 2 ∧
    Downloader.processJob
        (fun u => if u = "http://x/a" then .panicked "boom"
          else .ok { url := u, success := true, error := none })
        "http://x/a" =
      { url := "http://x/a", success := false,
        error := some ("worker panic: " ++ "boom") } ∧
    (Batch.ScrapeBatch (fun _ => { hasData := true, hasError := false })
        (fun r : String => r) ["x", "y", "x"]).length = 3 :=
  ⟨(pool_one_result_per_job_panic_isolated
      (fun u => if u = "http://x/a" then .panicked "boom"
        else .ok { url := u, success := true, error := none })
      ["http://x/a", "http://y/b"]
      (fun _ : String => { hasData := true, hasError := false })
      (fun r => r) ["x", "y", "x"]).1,
   (pool_one_result_per_job_panic_isolated
      (fun u => if u = "http://x/a" then .panicked "boom"
        else .ok { url := u, success := true, error := none })
      ["http://x/a", "http://y/b"]
      (fun _ : String => { hasData := true, hasError := false })
      (fun r => r) ["x", "y", "x"]).2.2.1 "http://x/a" "boom" (by decide),
   (pool_one_result_per_job_panic_isolated
      (fun u => if u = "http://x/a" then .panicked "boom"
        else .ok { url := u, success := true, error := none })
      ["http://x/a", "http://y/b"]
      (fun _ : String => { hasData := true, hasError := false })
      (fun r => r) ["x", "y", "x"]).2.2.2⟩

/-- C8, counterexample: a non-default selector (`"#main"`) that matches
nothing makes `StaticScraper.Fetch` log a warning and return a nil
error — the claim that an error is returned is false (the content fields
do stay empty). -/
theorem staticFetch_unmatched_selector_nil_error :
    (StaticEngine.extractSelectorContent
        { find := fun _ => { length := 0, text := "", html := "" } } "#main").err =
      none ∧
    ∀ e, (StaticEngine.extractSelectorContent
        { find := fun _ => { length := 0, text := "", html := "" } } "#main").err ≠
      some e := by
  exact ⟨rfl, fun e => by simp [StaticEngine.extractSelectorContent]⟩

/-- C8, amended: when the static fetcher's selector is non-default
(non-empty and not "body") and matches nothing in the document, `Fetch`
returns a nil error — the miss is only logged — and the returned
`PageData`'s `Content` and `HTML` stay empty. -/
theorem staticFetch_unmatched_selector (doc : StaticEngine.Doc) (sel : String)
    (h1 : sel ≠ "") (h2 : sel ≠ "body") (h0 : (doc.find sel).length = 0) :
    StaticEngine.extractSelectorContent doc sel =
      { content := "", html := "", err := none } := by
  simp [StaticEngine.extractSelectorContent, h1, h2, h0]

/-- C8, witness: `staticFetch_unmatched_selector` on a document whose
every selector lookup is empty, with selector `"#main"`. -/
theorem staticFetch_unmatched_selector_witness :
    StaticEngine.extractSelectorContent
        { find := fun _ => { length := 0, text := "", html := "" } } "#main" =
      { content := "", html := "", err := none } :=
  staticFetch_unmatched_selector
    { find := fun _ => { length := 0, text := "", html := "" } } "#main"
    (by decide) (by decide) rfl

/-- Helper: evicting does not change the configured maximum. -/
theorem evictLRU_maxSize (mc : Cache.MemoryCache) :
    (Cache.evictLRU mc).maxSize = mc.maxSize := by
  unfold Cache.evictLRU
  split <;> rfl

/-- Helper: evicting from a non-empty list removes exactly one entry. -/
theorem evictLRU_length (mc : Cache.MemoryCache) (h : mc.lru ≠ []) :
    (Cache.evictLRU mc).lru.length = mc.lru.length - 1 := by
  unfold Cache.evictLRU
  rw [dif_neg h]
  simp [List.length_dropLast]

/-- Helper: when the eviction loop exits, either the new entry fits under
the maximum or the LRU list has been emptied (and the maximum is
untouched either way). -/
theorem evictLoopAux_post (cost : Int) (fuel : Nat) :
    ∀ mc : Cache.MemoryCache, mc.lru.length ≤ fuel →
      (Cache.evictLoopAux cost fuel mc).maxSize = mc.maxSize ∧
      ((Cache.evictLoopAux cost fuel mc).size + cost ≤ mc.maxSize ∨
        (Cache.evictLoopAux cost fuel mc).lru = []) := by
  induction fuel with
  | zero =>
    intro mc h
    exact ⟨rfl, Or.inr (List.length_eq_zero.mp (Nat.le_zero.mp h))⟩
  | succ n ih =>
    intro mc h
    by_cases hc : mc.size + cost > mc.maxSize ∧ mc.lru ≠ []
    · have hstep : Cache.evictLoopAux cost (n + 1) mc =
          Cache.evictLoopAux cost n (Cache.evictLRU mc) := by
        rw [Cache.evictLoopAux, if_pos hc]
      have hlen : (Cache.evictLRU mc).lru.length ≤ n := by
        rw [evictLRU_length mc hc.2]
        have : mc.lru.length ≠ 0 :=
          fun hz => hc.2 (List.length_eq_zero.mp hz)
        omega
      obtain ⟨hmax, hpost⟩ := ih (Cache.evictLRU mc) hlen
      rw [hstep]
      refine ⟨by rw [hmax, evictLRU_maxSize], ?_⟩
      rcases hpost with hle | hnil
      · exact Or.inl (by rw [evictLRU_maxSize] at hle; exact hle)
      · exact Or.inr hnil
    · have hstep : Cache.evictLoopAux cost (n + 1) mc = mc := by
        rw [Cache.evictLoopAux, if_neg hc]
      rw [hstep]
      refine ⟨rfl, ?_⟩
      push_neg at hc
      by_cases hs : mc.size + cost > mc.maxSize
      · exact Or.inr (hc hs)
      · exact Or.inl (by omega)

/-- C1, counterexample: on a cache with maximum size 1 byte, a single
`Set` of an entry whose estimated cost is 1024 bytes (empty strings plus
the fixed overhead) leaves the accounted size at 1024 — the eviction loop
stops as soon as the list is empty and the oversized entry is admitted
anyway, so the accounted size exceeds the configured maximum when `Set`
returns. -/
theorem cache_set_admits_entry_above_max :
    (Cache.Set (Cache.NewMemoryCache 1) 0 "k" {} 1).maxSize = 1 ∧
    (Cache.Set (Cache.NewMemoryCache 1) 0 "k" {} 1).size = 1024 ∧
    ¬ (Cache.Set (Cache.NewMemoryCache 1) 0 "k" {} 1).size ≤
      (Cache.Set (Cache.NewMemoryCache 1) 0 "k" {} 1).maxSize := by
  decide

/-- C1, amended: eviction does run synchronously inside `Set` before the
new entry is admitted, but it only guarantees the bound when it can make
the entry fit: after a `Set` of a key not already present, either the
accounted size is at most the configured maximum, or the eviction loop
emptied the LRU list without reaching the fit condition (as when the new
entry's estimated cost alone exceeds the maximum) and the cache then
consists of exactly the newly admitted entry, with the accounted size
above the maximum; a `Set` that replaces an existing key performs no
eviction at all. -/
theorem cache_set_new_key_size_bound (mc : Cache.MemoryCache) (now : Int)
    (key : String) (data : Cache.PageData) (ttl : Int)
    (hnew : mc.lru.find? (fun e => e.key == key) = none) :
    (Cache.Set mc now key data ttl).size ≤ (Cache.Set mc now key data ttl).maxSize ∨
    (Cache.Set mc now key data ttl).lru.length = 1 := by
  obtain ⟨hmax, hpost⟩ :=
    evictLoopAux_post (Cache.setCost data) mc.lru.length mc (le_refl _)
  simp only [Cache.Set, hnew, Cache.evictLoop]
  rcases hpost with hle | hnil
  · exact Or.inl (by simpa [hmax] using hle)
  · exact Or.inr (by simp [hnil])

/-- C1, witness: `cache_set_new_key_size_bound` on the empty cache of
maximum size 1 from the counterexample — the second disjunct is the one
that holds there. -/
theorem cache_set_new_key_size_bound_witness :
    (Cache.Set (Cache.NewMemoryCache 1) 0 "k" {} 1).size ≤
      (Cache.Set (Cache.NewMemoryCache 1) 0 "k" {} 1).maxSize ∨
    (Cache.Set (Cache.NewMemoryCache 1) 0 "k" {} 1).lru.length = 1 :=
  cache_set_new_key_size_bound (Cache.NewMemoryCache 1) 0 "k" {} 1 (by decide)

/-- C6, counterexample: two consecutive `Set`s of the same key with the
same (empty) data leave the accounted size at 2048, not at the entry's
cost 1024 — the replacement subtracted 0 (`len(HTML)+len(Content)` of the
old entry) while admission had charged and charges again the 1024-byte
overhead, so repeated `Set`s of one key drift upward. -/
theorem cache_set_same_key_drifts :
    (Cache.Set (Cache.Set (Cache.NewMemoryCache 1000000) 0 "k" {} 1) 0 "k" {} 1).size =
      2048 ∧
    Cache.setCost {} = 1024 ∧
    (Cache.Set (Cache.Set (Cache.NewMemoryCache 1000000) 0 "k" {} 1) 0 "k" {} 1).size ≠
      Cache.setCost {} := by
  decide

/-- C6, amended: for a key already present, `Set` subtracts only the old
entry's `len(HTML) + len(Content)` (its `removalCost`) — not the full
cost charged when it was admitted, which also included `len(Title)` and
the fixed 1024-byte overhead — and then adds the new entry's full cost:
the accounted size becomes `size - removalCost(old) + setCost(new)`, so
repeatedly `Set`-ing the same key grows the accounted size by
`1024 + len(old Title)` per call instead of leaving it equal to the
current entry's cost. -/
theorem cache_set_replace_size (mc : Cache.MemoryCache) (now : Int)
    (key : String) (data : Cache.PageData) (ttl : Int) (e : Cache.CacheEntry)
    (hfound : mc.lru.find? (fun x => x.key == key) = some e) :
    (Cache.Set mc now key data ttl).size =
      mc.size - Cache.removalCost e.data + Cache.setCost data := by
  simp only [Cache.Set, hfound]

/-- C6, witness: `cache_set_replace_size` for the second `Set` of the
counterexample's sequence, where the old entry's removal cost is 0 and
the new cost 1024. -/
theorem cache_set_replace_size_witness :
    (Cache.Set (Cache.Set (Cache.NewMemoryCache 1000000) 0 "k" {} 1) 0 "k" {} 1).size =
      (Cache.Set (Cache.NewMemoryCache 1000000) 0 "k" {} 1).size -
        Cache.removalCost (Cache.PageData.mk "" "" "") + Cache.setCost {} :=
  cache_set_replace_size (Cache.Set (Cache.NewMemoryCache 1000000) 0 "k" {} 1) 0 "k"
    {} 1 { data := {}, expiresAt := 0 + Cache.effTTL 1, key := "k" } (by decide)

/-- Helper: the effective ttl of a `Set` is always positive (the default
replaces any nonpositive request). -/
theorem effTTL_pos (ttl : Int) : 0 < Cache.effTTL ttl := by
  unfold Cache.effTTL
  split
  · norm_num [Cache.defaultTTL]
  · omega

/-- C7: insert A, B, C in that order (each fitting without eviction),
`Get` A — a hit, which moves A to the most-recently-used position — and
then `Set` a fresh key D whose admission forces exactly one eviction.
The evicted entry is B, the true least-recently-used, and the cache then
holds exactly D, A, C in recency order. -/
theorem cache_get_refresh_then_evict_lru
    (M t0 : Int) (a b c d : String) (da db dc dd : Cache.PageData)
    (ta tb tc td : Int)
    (hM : ¬ M ≤ 0)
    (hab : a ≠ b) (hac : a ≠ c) (had : a ≠ d)
    (hbc : b ≠ c) (hbd : b ≠ d) (hcd : c ≠ d)
    (h2 : ¬ (Cache.setCost da + Cache.setCost db > M))
    (h3 : ¬ (Cache.setCost da + Cache.setCost db + Cache.setCost dc > M))
    (h4 : Cache.setCost da + Cache.setCost db + Cache.setCost dc +
      Cache.setCost dd > M)
    (h5 : ¬ (Cache.setCost da + Cache.setCost db + Cache.setCost dc -
      Cache.removalCost db + Cache.setCost dd > M)) :
    ((Cache.Set
        (Cache.Get
          (Cache.Set (Cache.Set (Cache.Set (Cache.NewMemoryCache M) t0 a da ta)
            t0 b db tb) t0 c dc tc)
          t0 a).2
        t0 d dd td).lru.map (fun e => e.key)) = [d, a, c] := by
  have fab : (a == b) = false := beq_eq_false_iff_ne.mpr hab
  have fac : (a == c) = false := beq_eq_false_iff_ne.mpr hac
  have fad : (a == d) = false := beq_eq_false_iff_ne.mpr had
  have fbc : (b == c) = false := beq_eq_false_iff_ne.mpr hbc
  have fbd : (b == d) = false := beq_eq_false_iff_ne.mpr hbd
  have fcd : (c == d) = false := beq_eq_false_iff_ne.mpr hcd
  have fba : (b == a) = false := beq_eq_false_iff_ne.mpr hab.symm
  have fca : (c == a) = false := beq_eq_false_iff_ne.mpr hac.symm
  have hexp : ¬ (t0 > t0 + Cache.effTTL ta) := by
    have := effTTL_pos ta
    omega
  have s1 : Cache.Set (Cache.NewMemoryCache M) t0 a da ta =
      { lru := [{ data := da, expiresAt := t0 + Cache.effTTL ta, key := a }]
        maxSize := M, size := Cache.setCost da, hits := 0, misses := 0 } := by
    simp [Cache.Set, Cache.NewMemoryCache, Cache.evictLoop, Cache.evictLoopAux, hM]
  have s2 : Cache.Set (Cache.Set (Cache.NewMemoryCache M) t0 a da ta) t0 b db tb =
      { lru := [{ data := db, expiresAt := t0 + Cache.effTTL tb, key := b },
                { data := da, expiresAt := t0 + Cache.effTTL ta, key := a }]
        maxSize := M, size := Cache.setCost da + Cache.setCost db
        hits := 0, misses := 0 } := by
    rw [s1]
    simp [Cache.Set, Cache.evictLoop, Cache.evictLoopAux, fab, h2]
  have s3 : Cache.Set (Cache.Set (Cache.Set (Cache.NewMemoryCache M) t0 a da ta)
        t0 b db tb) t0 c dc tc =
      { lru := [{ data := dc, expiresAt := t0 + Cache.effTTL tc, key := c },
                { data := db, expiresAt := t0 + Cache.effTTL tb, key := b },
                { data := da, expiresAt := t0 + Cache.effTTL ta, key := a }]
        maxSize := M
        size := Cache.setCost da + Cache.setCost db + Cache.setCost dc
        hits := 0, misses := 0 } := by
    rw [s2]
    simp [Cache.Set, Cache.evictLoop, Cache.evictLoopAux, fac, fbc, h3]
  have s4 : (Cache.Get (Cache.Set (Cache.Set (Cache.Set (Cache.NewMemoryCache M)
        t0 a da ta) t0 b db tb) t0 c dc tc) t0 a).2 =
      { lru := [{ data := da, expiresAt := t0 + Cache.effTTL ta, key := a },
                { data := dc, expiresAt := t0 + Cache.effTTL tc, key := c },
                { data := db, expiresAt := t0 + Cache.effTTL tb, key := b }]
        maxSize := M
        size := Cache.setCost da + Cache.setCost db + Cache.setCost dc
        hits := 1, misses := 0 } := by
    rw [s3]
    simp [Cache.Get, fca, fba, hexp, List.eraseP]
  have s5 : Cache.Set (Cache.Get (Cache.Set (Cache.Set (Cache.Set
        (Cache.NewMemoryCache M) t0 a da ta) t0 b db tb) t0 c dc tc) t0 a).2
        t0 d dd td =
      { lru := [{ data := dd, expiresAt := t0 + Cache.effTTL td, key := d },
                { data := da, expiresAt := t0 + Cache.effTTL ta, key := a },
                { data := dc, expiresAt := t0 + Cache.effTTL tc, key := c }]
        maxSize := M
        size := Cache.setCost da + Cache.setCost db + Cache.setCost dc -
          Cache.removalCost db + Cache.setCost dd
        hits := 1, misses := 0 } := by
    rw [s4]
    simp [Cache.Set, Cache.evictLoop, Cache.evictLoopAux, Cache.evictLRU,
      fad, fcd, fbd, h4, h5, List.dropLast, List.getLast]
  rw [s5]
  simp

/-- C7, witness: `cache_get_refresh_then_evict_lru` with four entries of
cost 1034 bytes (10 bytes of HTML plus the 1024 overhead) on a cache of
maximum size 4126: A, B, C fit, the `Get` of A is a hit, and admitting D
needs exactly one eviction (4136 > 4126, and 4126 ≤ 4126 after B's 10
HTML bytes are subtracted), which removes B and keeps D, A, C. -/
theorem cache_get_refresh_then_evict_lru_witness :
    ((Cache.Set
        (Cache.Get
          (Cache.Set (Cache.Set (Cache.Set (Cache.NewMemoryCache 4126) 0 "a"
            { html := "xxxxxxxxxx" } 1) 0 "b" { html := "xxxxxxxxxx" } 1) 0 "c"
            { html := "xxxxxxxxxx" } 1)
          0 "a").2
        0 "d" { html := "xxxxxxxxxx" } 1).lru.map (fun e => e.key)) =
      ["d", "a", "c"] :=
  cache_get_refresh_then_evict_lru 4126 0 "a" "b" "c" "d"
    { html := "xxxxxxxxxx" } { html := "xxxxxxxxxx" } { html := "xxxxxxxxxx" }
    { html := "xxxxxxxxxx" } 1 1 1 1
    (by decide) (by decide) (by decide) (by decide) (by decide) (by decide)
    (by decide) (by decide) (by decide) (by decide) (by decide)

